import Mathlib

/-!
Verification of the AirQo archive updater (scripts/update_airqo_archive.py).

The script is embedded shallowly:

  - JSON values decoded by the Python json module are modelled by the
    inductive type JVal.  Python distinguishes int and float; both appear
    here (JVal.int, JVal.num).  A finite float value is modelled by the
    exact decimal rational m / 10 ^ s it was written as (structure Dec);
    the rounding a binary double performs is outside the model, which is
    harmless because every numeric claim below concerns short decimal
    literals whose formatted output agrees with the double computation.
    The special float values inf, -inf and nan are separate constructors.
  - Strings are Lean strings; Python strip() is modelled by String.trim
    (ASCII whitespace; Python also strips some unicode space characters).
  - Fallible operations return Option; a Python function that catches every
    exception and returns a sentinel is modelled as a total function.
  - File and network input/output is externalised: the fetched responses
    are an oracle parameter, the archive is a list of rows, and the run is
    the pure function mainRun from those inputs to the new archive, the
    snapshot artifact and the process exit code.
-/

/-- An exact decimal rational m / 10 ^ s, the value denoted by a decimal
float literal. -/
structure Dec where
  m : ℤ
  s : ℕ
deriving DecidableEq, Repr

/-- A Python float value: a finite value kept as an exact decimal
rational, positive or negative infinity, or nan. -/
inductive PyNum where
  | fin (x : Dec)
  | inf
  | ninf
  | nan
deriving DecidableEq, Repr

/-- A decoded JSON value as the Python json module produces it.  Python
keeps int and float apart, and json accepts the literals NaN, Infinity and
-Infinity, so numeric leaves are either an int or a PyNum. -/
inductive JVal where
  | null
  | bool (b : Bool)
  | int (n : ℤ)
  | num (x : PyNum)
  | str (s : String)
  | arr (xs : List JVal)
  | obj (kvs : List (String × JVal))
deriving Repr

/-- Python truthiness (bool(v)) for the values of JVal. -/
def pyTruthy : JVal → Bool
  | .null => false
  | .bool b => b
  | .int n => n != 0
  | .num (.fin x) => x.m != 0
  | .num _ => true
  | .str s => s != ""
  | .arr xs => !xs.isEmpty
  | .obj kvs => !kvs.isEmpty

/-- Python str(v) for the values of JVal.  Only the rendering of strings
(the identity) and of None (mapped to the text None) is relied on by any
claim; the renderings of the remaining constructors are schematic
placeholders for the Python repr text, which no claim inspects. -/
def pyStr : JVal → String
  | .null => "None"
  | .bool true => "True"
  | .bool false => "False"
  | .int n => toString n
  | .num (.fin x) => toString x.m ++ "e-" ++ toString x.s
  | .num .inf => "inf"
  | .num .ninf => "-inf"
  | .num .nan => "nan"
  | .str s => s
  | .arr _ => "[list]"
  | .obj _ => "\x7bdict\x7d"

/-- The characters Python str.strip removes (ASCII; the unicode space
characters Python also strips are outside the model). -/
def pyWS (c : Char) : Bool :=
  c == ' ' || c == '\t' || c == '\n' || c == '\r' || c == '\x0b' || c == '\x0c'

/-- Python str.strip(): remove leading and trailing whitespace. -/
def pyStrip (s : String) : String :=
  String.mk (((s.data.dropWhile pyWS).reverse.dropWhile pyWS).reverse)

/-- Lowercase one ASCII letter. -/
def lowerChar (c : Char) : Char :=
  if 'A' ≤ c ∧ c ≤ 'Z' then Char.ofNat (c.toNat + 32) else c

/-- Python str.lower() on ASCII text. -/
def pyLower (s : String) : String := String.mk (s.data.map lowerChar)

/-- Numeric value of one ASCII digit. -/
def dval (c : Char) : ℕ := c.toNat - 48

/-- Consume a maximal run of digits, allowing single underscores between
digits as Python float() does; returns the value, the digit count and the
rest, or none when an underscore is not surrounded by digits. -/
def digGo : List Char → ℕ → ℕ → Option (ℕ × ℕ × List Char)
  | [], acc, n => some (acc, n, [])
  | '_' :: d :: r2, acc, n =>
      if d.isDigit then digGo r2 (acc * 10 + dval d) (n + 1) else none
  | ['_'], _, _ => none
  | c :: rest, acc, n =>
      if c.isDigit then digGo rest (acc * 10 + dval c) (n + 1)
      else some (acc, n, c :: rest)

/-- A digit run that must start with a digit. -/
def digRunStart : List Char → Option (ℕ × ℕ × List Char)
  | c :: rest => if c.isDigit then digGo rest (dval c) 1 else none
  | [] => none

/-- The mantissa of a Python float literal: digits with an optional
fractional part, or a fractional part alone; the exact decimal value is
returned. -/
def parseMantissa : List Char → Option (Dec × List Char)
  | '.' :: r =>
      match digRunStart r with
      | some (fp, k, rest) => some (⟨(fp : ℤ), k⟩, rest)
      | none => none
  | cs =>
      match digRunStart cs with
      | none => none
      | some (ip, _, rest) =>
        match rest with
        | '.' :: r2 =>
          match digRunStart r2 with
          | some (fp, k, r3) => some (⟨(ip : ℤ) * 10 ^ k + (fp : ℤ), k⟩, r3)
          | none => some (⟨(ip : ℤ), 0⟩, r2)
        | _ => some (⟨(ip : ℤ), 0⟩, rest)

/-- Python float(s) on a string: strip whitespace, lowercase (the special
names inf, infinity and nan are case insensitive), optional sign, special
names or a mantissa with an optional exponent.  The numeric value is kept
exact; none models a ValueError.  Unicode digits, which Python also
accepts, are outside the model. -/
def pyFloatOfString (s : String) : Option PyNum :=
  match (pyLower (pyStrip s)).data with
  | [] => none
  | cs =>
    match (match cs with
           | '+' :: r => (false, r)
           | '-' :: r => (true, r)
           | r => (false, r) : Bool × List Char) with
    | (neg, cs2) =>
      if cs2 = "inf".data ∨ cs2 = "infinity".data then
        some (if neg then .ninf else .inf)
      else if cs2 = "nan".data then some .nan
      else
        match parseMantissa cs2 with
        | none => none
        | some (x, rest) =>
          match rest with
          | [] => some (.fin ⟨if neg then -x.m else x.m, x.s⟩)
          | 'e' :: r2 =>
            match (match r2 with
                   | '+' :: rr => (false, rr)
                   | '-' :: rr => (true, rr)
                   | rr => (false, rr) : Bool × List Char) with
            | (eneg, r3) =>
              match digRunStart r3 with
              | some (e, _, []) =>
                  some (.fin
                    (if eneg then ⟨if neg then -x.m else x.m, x.s + e⟩
                     else ⟨(if neg then -x.m else x.m) * 10 ^ e, x.s⟩))
              | _ => none
          | _ => none

/-- The helper _num of the script: coerce a value to a float, mapping
None, non-numeric strings and nan (which fails the v equals v test) to the
empty-string sentinel, here none; never raises. -/
def _num : JVal → Option PyNum
  | .null => none
  | .bool b => some (.fin ⟨if b then 1 else 0, 0⟩)
  | .int n => some (.fin ⟨n, 0⟩)
  | .num x =>
      match x with
      | .nan => none
      | y => some y
  | .str s =>
      match pyFloatOfString s with
      | some .nan => none
      | r => r
  | .arr _ => none
  | .obj _ => none

/-- The helper _pick of the script: the value of the first present key,
else the default. -/
def _pick (d : List (String × JVal)) : List String → JVal → JVal
  | [], dflt => dflt
  | k :: ks, dflt =>
      match List.lookup k d with
      | some v => v
      | none => _pick d ks dflt

/-- The key-scanning loop at the top of _extract_pollutant: the value of
the first present key (which may be null), or none when no key is
present. -/
def lookupFirstKey (item : List (String × JVal)) : List String → Option JVal
  | [] => none
  | k :: ks =>
      match List.lookup k item with
      | some v => some v
      | none => lookupFirstKey item ks

/-- Aliases for the raw reading inside a nested pollutant object. -/
def rawAliasKeys : List String := ["value", "rawValue", "raw_value", "raw"]

/-- Aliases for the calibrated reading inside a nested pollutant object. -/
def calAliasKeys : List String := ["calibratedValue", "calibrated_value", "calibrated"]

/-- The helper _extract_pollutant of the script: resolve a pollutant field
to its (raw, calibrated) pair, handling a nested object, a bare scalar and
absence, with the calibrated value falling back to the raw one. -/
def _extract_pollutant (item : List (String × JVal)) (keys : List String) :
    Option PyNum × Option PyNum :=
  match lookupFirstKey item keys with
  | none => (none, none)
  | some .null => (none, none)
  | some (.obj pkvs) =>
      match _num (_pick pkvs calAliasKeys (.str "")), _num (_pick pkvs rawAliasKeys (.str "")) with
      | none, some r => (some r, some r)
      | cal, raw => (raw, cal)
  | some v =>
      match _num v with
      | none => (none, none)
      | some r => (some r, some r)

/-- Round a / d to the nearest integer, ties to even (d positive), as the
decimal formatting of CPython does. -/
def roundHalfEvenInt (a : ℤ) (d : ℕ) : ℤ :=
  if 2 * (a - Int.fdiv a d * d) < (d : ℤ) then Int.fdiv a d
  else if (d : ℤ) < 2 * (a - Int.fdiv a d * d) then Int.fdiv a d + 1
  else if Int.fdiv a d % 2 = 0 then Int.fdiv a d else Int.fdiv a d + 1

/-- The magnitude of a Dec value rounded to four decimal places, as an
integer count of ten-thousandths. -/
def roundMag4 (x : Dec) : ℕ :=
  (roundHalfEvenInt (|x.m| * 10000) (10 ^ x.s)).toNat

/-- Left-pad the decimal text of a natural number with zeros to a width. -/
def padZ (w n : ℕ) : String :=
  String.mk (List.replicate (w - (toString n).length) '0') ++ toString n

/-- Python rstrip with a single character: drop every trailing occurrence. -/
def rstripChar (s : String) (c : Char) : String :=
  String.mk ((s.data.reverse.dropWhile (fun a => a == c)).reverse)

/-- The float formatting of _extract_row: format with four decimal places
(ties to even), then strip trailing zeros and a trailing dot.  Rounding
the magnitude and reattaching the sign agrees with the signed half-even
rounding Python performs, because half-even rounding is symmetric. -/
def fmtFloat4 (x : Dec) : String :=
  rstripChar
    (rstripChar
      ((if x.m < 0 then "-" else "")
        ++ toString (roundMag4 x / 10000)
        ++ "."
        ++ padZ 4 (roundMag4 x % 10000)) '0') '.'

/-- The text stored for a pollutant slot: empty-string sentinel, or the
formatted float. -/
def polText : Option PyNum → String
  | none => ""
  | some (.fin x) => fmtFloat4 x
  | some .inf => "inf"
  | some .ninf => "-inf"
  | some .nan => "nan"

/-- The final formatting loop of _extract_row on a generic cell: floats
are formatted, None becomes the empty string, everything else is passed
through str. -/
def cellText : JVal → String
  | .null => ""
  | .num (.fin x) => fmtFloat4 x
  | .num .inf => "inf"
  | .num .ninf => "-inf"
  | .num .nan => "nan"
  | v => pyStr v

/-- Leap year test of the proleptic Gregorian calendar. -/
def isLeap (y : ℤ) : Bool :=
  y % 4 == 0 && (y % 100 != 0 || y % 400 == 0)

/-- Days in a month. -/
def daysInMonth (y : ℤ) (m : ℕ) : ℕ :=
  if m = 2 then (if isLeap y then 29 else 28)
  else if m = 4 ∨ m = 6 ∨ m = 9 ∨ m = 11 then 30
  else 31

/-- Civil date of a day count relative to 1970-01-01 (standard
days-to-civil conversion for the proleptic Gregorian calendar). -/
def civilFromDays (z0 : ℤ) : ℤ × ℕ × ℕ :=
  let z := z0 + 719468
  let era := Int.fdiv z 146097
  let doe := z - era * 146097
  let yoe := Int.fdiv (doe - Int.fdiv doe 1460 + Int.fdiv doe 36524 - Int.fdiv doe 146096) 365
  let doy := doe - (365 * yoe + Int.fdiv yoe 4 - Int.fdiv yoe 100)
  let mp := Int.fdiv (5 * doy + 2) 153
  let d := doy - Int.fdiv (153 * mp + 2) 5 + 1
  let m := if mp < 10 then mp + 3 else mp - 9
  (yoe + era * 400 + (if m ≤ 2 then 1 else 0), m.toNat, d.toNat)

/-- Day count relative to 1970-01-01 of a civil date (standard
civil-to-days conversion). -/
def daysFromCivil (y : ℤ) (m d : ℕ) : ℤ :=
  let y2 := if m ≤ 2 then y - 1 else y
  let era := Int.fdiv y2 400
  let yoe := y2 - era * 400
  let mp : ℤ := if 2 < m then (m : ℤ) - 3 else (m : ℤ) + 9
  let doy := Int.fdiv (153 * mp + 2) 5 + (d : ℤ) - 1
  let doe := yoe * 365 + Int.fdiv yoe 4 - Int.fdiv yoe 100 + doy
  era * 146097 + doe - 719468

/-- A UTC instant as the datetime module renders it. -/
structure UTCTime where
  year : ℤ
  month : ℕ
  day : ℕ
  hour : ℕ
  minute : ℕ
  second : ℕ
  micro : ℕ
deriving DecidableEq, Repr

/-- isoformat() of a UTC-aware datetime: microseconds are printed only
when they are non-zero, and the offset is rendered as +00:00. -/
def renderUTC (u : UTCTime) : String :=
  padZ 4 u.year.toNat ++ "-" ++ padZ 2 u.month ++ "-" ++ padZ 2 u.day
    ++ "T" ++ padZ 2 u.hour ++ ":" ++ padZ 2 u.minute ++ ":" ++ padZ 2 u.second
    ++ (if u.micro = 0 then "" else "." ++ padZ 6 u.micro)
    ++ "+00:00"

/-- datetime.fromtimestamp(v / 1000, utc).isoformat() on a finite float
millisecond count: round to whole microseconds (ties to even), split into
days and the time of day, convert to a civil date and render; a timestamp
whose year leaves 1..9999 raises in Python, which the enclosing try block
of _iso turns into the empty string. -/
def isoOfEpochMs (x : Dec) : String :=
  let micros := roundHalfEvenInt (x.m * 1000) (10 ^ x.s)
  let secs := Int.fdiv micros 1000000
  let mic := (micros - secs * 1000000).toNat
  let days := Int.fdiv secs 86400
  let sod := (secs - days * 86400).toNat
  match civilFromDays days with
  | (y, mo, d) =>
    if 1 ≤ y ∧ y ≤ 9999 then
      renderUTC ⟨y, mo, d, sod / 3600, (sod % 3600) / 60, sod % 60, mic⟩
    else ""

/-- A parsed ISO-8601 datetime before timezone conversion: the civil
fields and an optional UTC offset in seconds. -/
structure DT where
  year : ℤ
  month : ℕ
  day : ℕ
  hour : ℕ
  minute : ℕ
  second : ℕ
  micro : ℕ
  offSec : Option ℤ
deriving DecidableEq, Repr

/-- Read exactly two digits. -/
def read2 : List Char → Option (ℕ × List Char)
  | a :: b :: rest =>
      if a.isDigit && b.isDigit then some (dval a * 10 + dval b, rest) else none
  | _ => none

/-- Read exactly four digits. -/
def read4 : List Char → Option (ℕ × List Char)
  | a :: b :: c :: d :: rest =>
      if a.isDigit && b.isDigit && c.isDigit && d.isDigit then
        some (dval a * 1000 + dval b * 100 + dval c * 10 + dval d, rest)
      else none
  | _ => none

/-- Collect a leading run of digits. -/
def takeDigits : List Char → List ℕ × List Char
  | c :: rest =>
      if c.isDigit then
        match takeDigits rest with
        | (ds, r) => (dval c :: ds, r)
      else ([], c :: rest)
  | [] => ([], [])

/-- Microseconds denoted by a fractional-second digit list: use the first
six digits, padding to six; Python truncates digits beyond six. -/
def microOfDigits (ds : List ℕ) : ℕ :=
  (ds.take 6).foldl (fun a d => a * 10 + d) 0 * 10 ^ (6 - (ds.take 6).length)

/-- Parse the time part HH[:MM[:SS[.ffk]]] of an ISO string; the
fractional separator may be a dot or a comma. -/
def parseTime (cs : List Char) : Option (ℕ × ℕ × ℕ × ℕ × List Char) :=
  match read2 cs with
  | none => none
  | some (h, r1) =>
    match r1 with
    | ':' :: r2 =>
      match read2 r2 with
      | none => none
      | some (mi, r3) =>
        match r3 with
        | ':' :: r4 =>
          match read2 r4 with
          | none => none
          | some (se, r5) =>
            match r5 with
            | '.' :: r6 =>
              match takeDigits r6 with
              | ([], _) => none
              | (ds, r7) => some (h, mi, se, microOfDigits ds, r7)
            | ',' :: r6 =>
              match takeDigits r6 with
              | ([], _) => none
              | (ds, r7) => some (h, mi, se, microOfDigits ds, r7)
            | _ => some (h, mi, se, 0, r5)
        | _ => some (h, mi, 0, 0, r3)
    | _ => some (h, 0, 0, 0, r1)

/-- Parse the magnitude of a numeric UTC offset, with or without colons,
giving seconds. -/
def parseOffMag (cs : List Char) : Option (ℤ × List Char) :=
  match read2 cs with
  | none => none
  | some (oh, r1) =>
    if ¬ oh ≤ 23 then none
    else
      match r1 with
      | ':' :: r2 =>
        match read2 r2 with
        | none => none
        | some (om, r3) =>
          if ¬ om ≤ 59 then none
          else
            match r3 with
            | ':' :: r4 =>
              match read2 r4 with
              | none => none
              | some (os, r5) =>
                if ¬ os ≤ 59 then none
                else some ((oh * 3600 + om * 60 + os : ℕ), r5)
            | _ => some ((oh * 3600 + om * 60 : ℕ), r3)
      | d1 :: d2 :: r2 =>
        if d1.isDigit && d2.isDigit then
          if dval d1 * 10 + dval d2 ≤ 59 then
            some ((oh * 3600 + (dval d1 * 10 + dval d2) * 60 : ℕ), r2)
          else none
        else some ((oh * 3600 : ℕ), d1 :: d2 :: r2)
      | r2 => some ((oh * 3600 : ℕ), r2)

/-- Parse the timezone suffix: nothing, the letter Z, or a signed offset. -/
def parseOffset : List Char → Option (Option ℤ × List Char)
  | [] => some (none, [])
  | 'Z' :: rest => some (some 0, rest)
  | '+' :: rest =>
      match parseOffMag rest with
      | some (o, r) => some (some o, r)
      | none => none
  | '-' :: rest =>
      match parseOffMag rest with
      | some (o, r) => some (some (-o), r)
      | none => none
  | cs => some (none, cs)

/-- Validate the parsed fields as datetime does. -/
def mkDT (y : ℕ) (mo d h mi se mic : ℕ) (off : Option ℤ) : Option DT :=
  if 1 ≤ y ∧ 1 ≤ mo ∧ mo ≤ 12 ∧ 1 ≤ d ∧ d ≤ daysInMonth (y : ℤ) mo
      ∧ h ≤ 23 ∧ mi ≤ 59 ∧ se ≤ 59 then
    some ⟨(y : ℤ), mo, d, h, mi, se, mic, off⟩
  else none

/-- datetime.fromisoformat on the extended format
YYYY-MM-DD[sep HH[:MM[:SS[.fff]]]][offset]: the separator may be any
single character, the offset may be Z or a signed value.  The basic
(dash-free) formats and the ordinal and week formats that recent Python
versions also accept are outside the model. -/
def parseDT (s : String) : Option DT :=
  match read4 s.data with
  | none => none
  | some (y, r1) =>
    match r1 with
    | '-' :: r2 =>
      match read2 r2 with
      | none => none
      | some (mo, r3) =>
        match r3 with
        | '-' :: r4 =>
          match read2 r4 with
          | none => none
          | some (d, r5) =>
            match r5 with
            | [] => mkDT y mo d 0 0 0 0 none
            | _ :: r6 =>
              match parseTime r6 with
              | none => none
              | some (h, mi, se, mic, r7) =>
                match parseOffset r7 with
                | none => none
                | some (off, r8) =>
                  if r8 = [] then mkDT y mo d h mi se mic off else none
        | _ => none
    | _ => none

/-- The offset of the local timezone, in seconds.  The script runs
astimezone(utc) on offset-naive datetimes, which interprets them in the
local timezone of the runner; the model fixes the runner timezone to
UTC. -/
def localOffSec : ℤ := 0

/-- astimezone(timezone.utc) on a parsed datetime: subtract the offset
(naive datetimes use the local timezone) and renormalize; Python raises
an OverflowError when the result leaves year 1..9999, which the enclosing
try block turns into returning the original string. -/
def toUTC (dt : DT) : Option UTCTime :=
  let off := dt.offSec.getD localOffSec
  let tot := daysFromCivil dt.year dt.month dt.day * 86400
              + (dt.hour * 3600 + dt.minute * 60 + dt.second : ℕ) - off
  let days := Int.fdiv tot 86400
  let sod := (tot - days * 86400).toNat
  match civilFromDays days with
  | (y, mo, d) =>
    if 1 ≤ y ∧ y ≤ 9999 then
      some ⟨y, mo, d, sod / 3600, (sod % 3600) / 60, sod % 60, dt.micro⟩
    else none

/-- Whether a string ends with the character Z. -/
def endsZ (s : String) : Bool := s.data.getLast? == some 'Z'

/-- Drop the final character of a string. -/
def dropLast1 (s : String) : String := String.mk s.data.dropLast

/-- The parsing step of _iso on an already-stripped string: a trailing Z
is first rewritten to an explicit +00:00 offset. -/
def parseAfterRewrite (t : String) : Option DT :=
  if endsZ t then parseDT (dropLast1 t ++ "+00:00") else parseDT t

/-- The string branch of _iso: strip, return the empty string for
whitespace-only input, parse with the Z rewrite, convert to UTC and
render; any failure returns the stripped string itself. -/
def isoStrPath (s0 : String) : String :=
  if pyStrip s0 = "" then ""
  else
    match parseAfterRewrite (pyStrip s0) with
    | none => pyStrip s0
    | some dt =>
      match toUTC dt with
      | none => pyStrip s0
      | some u => renderUTC u

/-- The helper _iso of the script: falsy values give the empty string,
numeric values (bool counts as int in Python) are epoch milliseconds, nan
and the infinities raise inside the try block and give the empty string,
and any other value is converted to text and sent down the string path. -/
def _iso (v : JVal) : String :=
  if pyTruthy v then
    match v with
    | .int n => isoOfEpochMs ⟨n, 0⟩
    | .num (.fin x) => isoOfEpochMs x
    | .num _ => ""
    | .bool _ => isoOfEpochMs ⟨1, 0⟩
    | w => isoStrPath (pyStr w)
  else ""

/-- The fixed CSV schema (CSV_COLUMNS) as a record of stored text. -/
structure Row where
  datetime : String
  device_name : String
  frequency : String
  humidity : String
  latitude : String
  longitude : String
  network : String
  pm10 : String
  pm10_calibrated_value : String
  pm2_5 : String
  pm2_5_calibrated_value : String
  site_name : String
  temperature : String
deriving DecidableEq, Repr

/-- str(v) for the identity-like fields of _extract_row, where None is
mapped to the empty string before the final loop. -/
def strOrEmpty : JVal → String
  | .null => ""
  | v => pyStr v

/-- The function _extract_row of the script: normalize one raw
measurement object into the fixed row schema. -/
def _extract_row (item : List (String × JVal)) : Row :=
  { datetime := _iso (_pick item ["time", "timestamp", "created_at", "createdAt"] (.str ""))
    device_name := strOrEmpty (_pick item ["device", "device_id", "deviceId", "name"] (.str ""))
    frequency := strOrEmpty (_pick item ["frequency"] (.str ""))
    humidity := cellText (_pick item ["humidity", "rh"] (.str ""))
    latitude := cellText (_pick item ["latitude", "lat"] (.str ""))
    longitude := cellText (_pick item ["longitude", "lon", "lng"] (.str ""))
    network := strOrEmpty (_pick item ["network"] (.str ""))
    pm10 := polText (_extract_pollutant item ["pm10", "pm_10"]).1
    pm10_calibrated_value := polText (_extract_pollutant item ["pm10", "pm_10"]).2
    pm2_5 := polText (_extract_pollutant item ["pm2_5", "pm25", "pm_2_5"]).1
    pm2_5_calibrated_value := polText (_extract_pollutant item ["pm2_5", "pm25", "pm_2_5"]).2
    site_name := strOrEmpty (_pick item ["site_name", "siteName", "site"] (.str ""))
    temperature := cellText (_pick item ["temperature", "temp"] (.str "")) }

/-- The identity key of a row: stripped datetime and device name. -/
def rowKey (r : Row) : String × String := (pyStrip r.datetime, pyStrip r.device_name)

/-- The function _load_existing_keys of the script: the keys of the rows
whose stripped datetime and device name are both non-empty. -/
def _load_existing_keys (archive : List Row) : List (String × String) :=
  (archive.filter fun r => pyStrip r.datetime != "" && pyStrip r.device_name != "").map rowKey

/-- The accumulation loop of main over the fetched measurement items:
non-dict items are skipped, a row with an empty key component is
discarded, a row whose key was already seen is skipped, and otherwise the
row is appended and its key recorded. -/
def newRows (existing : List (String × String)) : List JVal → List Row
  | [] => []
  | .obj kvs :: rest =>
      if (rowKey (_extract_row kvs)).1 = "" ∨ (rowKey (_extract_row kvs)).2 = "" then
        newRows existing rest
      else if rowKey (_extract_row kvs) ∈ existing then
        newRows existing rest
      else
        _extract_row kvs :: newRows (rowKey (_extract_row kvs) :: existing) rest
  | _ :: rest => newRows existing rest

/-- One archive update of main: append the accepted new rows to the
stored rows (the archive file is append-only). -/
def runArchive (archive : List Row) (measurements : List JVal) : List Row :=
  archive ++ newRows (_load_existing_keys archive) measurements

/-- The archive invariant of the specification: every stored row has a
non-empty (stripped) datetime and device name, and no two rows share the
identity key. -/
def ArchiveInv (rows : List Row) : Prop :=
  (∀ r ∈ rows, pyStrip r.datetime ≠ "" ∧ pyStrip r.device_name ≠ "")
    ∧ (rows.map rowKey).Nodup

instance (rows : List Row) : Decidable (ArchiveInv rows) :=
  inferInstanceAs (Decidable
    ((∀ r ∈ rows, pyStrip r.datetime ≠ "" ∧ pyStrip r.device_name ≠ "")
      ∧ (rows.map rowKey).Nodup))

/-- Python x or y on JSON values. -/
def pyOrJ (a b : JVal) : JVal := if pyTruthy a then a else b

/-- dict.get k: the value, or None when the key is absent. -/
def jget (kvs : List (String × JVal)) (k : String) : JVal :=
  (List.lookup k kvs).getD .null

/-- The measurement-list extraction of main on the decoded response body:
data.get(measurements) or data.get(results) or the empty list, then
replaced by the empty list when the result is not a list. -/
def getMeasurementList (kvs : List (String × JVal)) : List JVal :=
  match pyOrJ (jget kvs "measurements") (pyOrJ (jget kvs "results") (.arr [])) with
  | .arr xs => xs
  | _ => []

/-- An HTTP response: status code and body text.  The decoded JSON body
is supplied separately to mainRun, since decoding is external to the
reconciliation logic. -/
structure Resp where
  status : ℕ
  text : String
deriving DecidableEq, Repr

/-- requests response.ok: status below 400. -/
def respOk (r : Resp) : Bool := r.status < 400

/-- The function _try_fetch of the script: bearer-header auth first, then
query-token auth; on double failure the query response is returned with a
diagnostic mode string. -/
def _try_fetch (r1 r2 : Resp) : Resp × String :=
  if respOk r1 then (r1, "bearer")
  else if respOk r2 then (r2, "query")
  else (r2, "failed(bearer=" ++ toString r1.status ++ ",query=" ++ toString r2.status ++ ")")

/-- The combined attempt number i of a run: _try_fetch on the two
responses the network would give at that attempt. -/
def attemptOf (oracle : ℕ → Resp × Resp) (i : ℕ) : Resp × String :=
  _try_fetch (oracle i).1 (oracle i).2

/-- The outcome of fetch_with_retries: the last (or successful) response
and mode, the backoff sleeps performed, and the number of combined
attempts made. -/
structure FetchOutcome where
  result : Option Resp
  mode : String
  sleeps : List ℕ
  calls : ℕ
deriving DecidableEq, Repr

/-- The retry loop of fetch_with_retries: attempt i, return on success,
otherwise sleep 3 * (i + 1) ^ 2 seconds and continue while attempts
remain. -/
def fetchGo (oracle : ℕ → Resp × Resp) : ℕ → ℕ → Option Resp → String → List ℕ → FetchOutcome
  | i, 0, last, mode, sleeps => ⟨last, mode, sleeps, i⟩
  | i, fuel + 1, _, _, sleeps =>
      if respOk (attemptOf oracle i).1 then
        ⟨some (attemptOf oracle i).1, (attemptOf oracle i).2, sleeps, i + 1⟩
      else
        fetchGo oracle (i + 1) fuel (some (attemptOf oracle i).1) (attemptOf oracle i).2
          (sleeps ++ [3 * (i + 1) ^ 2])

/-- The function fetch_with_retries of the script. -/
def fetch_with_retries (oracle : ℕ → Resp × Resp) (attempts : ℕ) : FetchOutcome :=
  fetchGo oracle 0 attempts none "" []

/-- Python text slicing s[:500] used for the response-body preview. -/
def pyTake500 (s : String) : String := String.mk (s.data.take 500)

/-- The Recent Snapshot artifact: the decoded successful response body,
or the diagnostic error object written on fetch failure (its fields
status_code, auth_mode and response_text_preview). -/
inductive Snapshot where
  | payload (v : JVal)
  | fetchError (status : Option ℕ) (authMode : String) (preview : String)

/-- The function main of the script as a pure run: from the environment
inputs, the network oracle, the decoded bodies and the current archive to
the new archive, the snapshot written (none when no write happens) and
the process exit code.  A missing token or cohort exits zero without
fetching; a fetch failure writes the diagnostic snapshot and exits zero;
a successful fetch whose body is not a JSON object would raise an
uncaught exception (modelled as exit code 1). -/
def mainRun (token cohortId : String) (oracle : ℕ → Resp × Resp)
    (jsonOf : Resp → Option JVal) (archive : List Row) :
    List Row × Option Snapshot × ℕ :=
  if pyStrip token = "" ∨ pyStrip cohortId = "" then (archive, none, 0)
  else
    match (fetch_with_retries oracle 4).result with
    | none => (archive, some (.fetchError none (fetch_with_retries oracle 4).mode ""), 0)
    | some resp =>
      if respOk resp then
        match jsonOf resp with
        | none => (archive, none, 1)
        | some data =>
          match data with
          | .obj kvs => (runArchive archive (getMeasurementList kvs), some (.payload data), 0)
          | other => (archive, some (.payload other), 1)
      else
        (archive,
         some (.fetchError (some resp.status) (fetch_with_retries oracle 4).mode
            (pyTake500 resp.text)), 0)

/-- An archived row without a calibrated pm2_5 value, used in concrete
statements. -/
def rowNoCal : Row :=
  ⟨"2024-01-01T00:00:00+00:00", "aq-01", "", "", "", "", "", "", "", "", "", "", ""⟩

/-- A fetched measurement with the same identity key as rowNoCal and a
calibrated pm2_5 value. -/
def itemWithCal : List (String × JVal) :=
  [("device", .str "aq-01"), ("time", .str "2024-01-01T00:00:00Z"),
   ("pm2_5", .obj [("calibratedValue", .num (.fin ⟨91, 1⟩))])]

/-- The raw measurement of the specification scenario for the fallback
rule: a device, a time and a bare pm2_5 object carrying only a raw
value. -/
def itemScenario : List (String × JVal) :=
  [("device", .str "aq-01"), ("time", .str "2024-01-01T00:00:00Z"),
   ("pm2_5", .obj [("value", .num (.fin ⟨123, 1⟩))])]

/-- A minimal valid measurement used to compare response-body shapes. -/
def itemMinimal : List (String × JVal) :=
  [("device", .str "aq-01"), ("time", .str "2024-01-01T00:00:00+00:00")]

theorem newRows_mem (B : List JVal) : ∀ (ex : List (String × String)), ∀ r ∈ newRows ex B,
    rowKey r ∉ ex ∧ (rowKey r).1 ≠ "" ∧ (rowKey r).2 ≠ "" := by
  induction B with
  | nil => intro ex r hr; simp [newRows] at hr
  | cons item rest ih =>
    intro ex r hr
    cases item
    case obj kvs =>
      simp only [newRows] at hr
      by_cases h1 : (rowKey (_extract_row kvs)).1 = "" ∨ (rowKey (_extract_row kvs)).2 = ""
      · rw [if_pos h1] at hr; exact ih ex r hr
      · rw [if_neg h1] at hr
        by_cases h2 : rowKey (_extract_row kvs) ∈ ex
        · rw [if_pos h2] at hr; exact ih ex r hr
        · rw [if_neg h2] at hr
          rcases List.mem_cons.mp hr with h | h
          · subst h; push_neg at h1; exact ⟨h2, h1⟩
          · obtain ⟨hn, hk⟩ := ih _ r h
            exact ⟨fun hmem => hn (List.mem_cons_of_mem _ hmem), hk⟩
    all_goals (simp only [newRows] at hr; exact ih ex r hr)

theorem newRows_nodup (B : List JVal) : ∀ (ex : List (String × String)),
    ((newRows ex B).map rowKey).Nodup := by
  induction B with
  | nil => intro ex; simp [newRows]
  | cons item rest ih =>
    intro ex
    cases item
    case obj kvs =>
      simp only [newRows]
      by_cases h1 : (rowKey (_extract_row kvs)).1 = "" ∨ (rowKey (_extract_row kvs)).2 = ""
      · rw [if_pos h1]; exact ih ex
      · rw [if_neg h1]
        by_cases h2 : rowKey (_extract_row kvs) ∈ ex
        · rw [if_pos h2]; exact ih ex
        · rw [if_neg h2]
          rw [List.map_cons, List.nodup_cons]
          refine ⟨?_, ih _⟩
          intro hmem
          obtain ⟨r, hr, hkey⟩ := List.mem_map.mp hmem
          have := (newRows_mem rest _ r hr).1
          exact this (hkey ▸ List.mem_cons_self _ _)
    all_goals (simp only [newRows]; exact ih ex)

theorem newRows_absorb (B : List JVal) : ∀ (ex S : List (String × String)),
    (∀ k ∈ ex, k ∈ S) → (∀ r ∈ newRows ex B, rowKey r ∈ S) → newRows S B = [] := by
  induction B with
  | nil => intro ex S h1 h2; simp [newRows]
  | cons item rest ih =>
    intro ex S h1 h2
    cases item
    case obj kvs =>
      simp only [newRows]
      by_cases hA : (rowKey (_extract_row kvs)).1 = "" ∨ (rowKey (_extract_row kvs)).2 = ""
      · rw [if_pos hA]
        apply ih ex S h1
        intro r hr; apply h2; simp only [newRows]; rw [if_pos hA]; exact hr
      · rw [if_neg hA]
        by_cases hEx : rowKey (_extract_row kvs) ∈ ex
        · rw [if_pos (h1 _ hEx)]
          apply ih ex S h1
          intro r hr; apply h2; simp only [newRows]; rw [if_neg hA, if_pos hEx]; exact hr
        · have hS : rowKey (_extract_row kvs) ∈ S := by
            apply h2; simp only [newRows]; rw [if_neg hA, if_neg hEx]
            exact List.mem_cons_self _ _
          rw [if_pos hS]
          apply ih (rowKey (_extract_row kvs) :: ex) S
          · intro k hk
            rcases List.mem_cons.mp hk with rfl | hk2
            · exact hS
            · exact h1 k hk2
          · intro r hr; apply h2; simp only [newRows]; rw [if_neg hA, if_neg hEx]
            exact List.mem_cons_of_mem _ hr
    all_goals
      simp only [newRows]
      exact ih ex S h1 (fun r hr => h2 r (by simp only [newRows]; exact hr))

theorem load_keys_append (A C : List Row) :
    _load_existing_keys (A ++ C) = _load_existing_keys A ++ _load_existing_keys C := by
  simp [_load_existing_keys, List.filter_append]

theorem load_keys_of_valid (C : List Row)
    (h : ∀ r ∈ C, pyStrip r.datetime ≠ "" ∧ pyStrip r.device_name ≠ "") :
    _load_existing_keys C = C.map rowKey := by
  unfold _load_existing_keys
  rw [List.filter_eq_self.mpr]
  intro r hr
  have hv := h r hr
  simp [hv.1, hv.2]

/-- C2: after any run, the persisted archive has only rows with non-empty
datetime and device name and no two rows sharing the identity key, for
every starting archive satisfying the invariant and every fetched batch;
rows violating the key condition are discarded before storage. -/
theorem C2_archive_invariant (A : List Row) (B : List JVal) (h : ArchiveInv A) :
    ArchiveInv (runArchive A B) := by
  obtain ⟨hne, hnd⟩ := h
  constructor
  · intro r hr
    rcases List.mem_append.mp hr with hm | hm
    · exact hne r hm
    · exact (newRows_mem B _ r hm).2
  · show ((A ++ newRows (_load_existing_keys A) B).map rowKey).Nodup
    rw [List.map_append, List.nodup_append]
    refine ⟨hnd, newRows_nodup B _, ?_⟩
    intro k hk1 hk2
    obtain ⟨r, hr, hkey⟩ := List.mem_map.mp hk2
    have hnotin := (newRows_mem B _ r hr).1
    apply hnotin
    rw [load_keys_of_valid A hne, hkey]
    exact hk1

/-- C2 witness: a concrete run from an archive satisfying the invariant. -/
theorem C2_archive_invariant_witness :
    ArchiveInv (runArchive
      [⟨"2024-01-01T00:00:00+00:00", "aq-01", "", "", "", "", "", "", "", "", "", "", ""⟩]
      [.obj [("device", .str "aq-02"), ("time", .str "2024-01-01T00:00:00Z")],
       .obj [("device", .str "aq-02"), ("time", .str "2024-01-01T00:00:00Z")],
       .obj [("device", .str "aq-03")]]) :=
  C2_archive_invariant _ _ (by decide)

/-- C3: reconciliation is idempotent: reconciling the same batch against
the result of a first reconciliation appends nothing and changes no row. -/
theorem C3_reconcile_idempotent (A : List Row) (B : List JVal) :
    runArchive (runArchive A B) B = runArchive A B := by
  unfold runArchive
  have hvalid : ∀ r ∈ newRows (_load_existing_keys A) B,
      pyStrip r.datetime ≠ "" ∧ pyStrip r.device_name ≠ "" :=
    fun r hr => (newRows_mem B _ r hr).2
  rw [load_keys_append, load_keys_of_valid _ hvalid]
  rw [newRows_absorb B (_load_existing_keys A) _
        (fun k hk => List.mem_append_left _ hk)
        (fun r hr => List.mem_append_right _ (List.mem_map_of_mem rowKey hr)),
      List.append_nil]

/-- C1 counterexample: with the non-calibrated row already in the archive
and the record carrying a calibrated value arriving in a later fetch, the
run keeps the non-calibrated row and drops the calibrated one, so the row
set does not contain the row with the calibrated value. -/
theorem C1_calibrated_precedence_false :
    rowKey (_extract_row itemWithCal) = rowKey rowNoCal
    ∧ (_extract_row itemWithCal).pm2_5_calibrated_value = "9.1"
    ∧ rowNoCal.pm2_5_calibrated_value = ""
    ∧ runArchive [rowNoCal] [.obj itemWithCal] = [rowNoCal]
    ∧ _extract_row itemWithCal ∉ runArchive [rowNoCal] [.obj itemWithCal] := by
  decide

theorem newRows_congr (B : List JVal) : ∀ (ex ex2 : List (String × String)),
    (∀ k, k ∈ ex ↔ k ∈ ex2) → newRows ex B = newRows ex2 B := by
  induction B with
  | nil => intro ex ex2 h; rfl
  | cons item rest ih =>
    intro ex ex2 h
    cases item
    case obj kvs =>
      simp only [newRows]
      by_cases hA : (rowKey (_extract_row kvs)).1 = "" ∨ (rowKey (_extract_row kvs)).2 = ""
      · rw [if_pos hA, if_pos hA]
        exact ih ex ex2 h
      · rw [if_neg hA, if_neg hA]
        by_cases hEx : rowKey (_extract_row kvs) ∈ ex
        · rw [if_pos hEx, if_pos ((h _).mp hEx)]
          exact ih ex ex2 h
        · rw [if_neg hEx, if_neg (fun h2 => hEx ((h _).mpr h2))]
          have hrec := ih (rowKey (_extract_row kvs) :: ex) (rowKey (_extract_row kvs) :: ex2)
            (fun k => by simp only [List.mem_cons]; exact or_congr Iff.rfl (h k))
          rw [hrec]
    all_goals (simp only [newRows]; exact ih ex ex2 h)

theorem newRows_append (B : List JVal) : ∀ (C : List JVal) (ex : List (String × String)),
    newRows ex (B ++ C) = newRows ex B ++ newRows (ex ++ (newRows ex B).map rowKey) C := by
  induction B with
  | nil =>
    intro C ex
    simp only [List.nil_append, newRows, List.map_nil, List.append_nil]
  | cons item rest ih =>
    intro C ex
    cases item
    case obj kvs =>
      simp only [List.cons_append, newRows]
      by_cases hA : (rowKey (_extract_row kvs)).1 = "" ∨ (rowKey (_extract_row kvs)).2 = ""
      · rw [if_pos hA, if_pos hA]
        exact ih C ex
      · rw [if_neg hA, if_neg hA]
        by_cases hEx : rowKey (_extract_row kvs) ∈ ex
        · rw [if_pos hEx, if_pos hEx]
          exact ih C ex
        · rw [if_neg hEx, if_neg hEx]
          simp only [List.append_eq]
          rw [ih C (rowKey (_extract_row kvs) :: ex)]
          simp only [List.cons_append, List.map_cons]
          rw [newRows_congr C
            (rowKey (_extract_row kvs)
              :: (ex ++ (newRows (rowKey (_extract_row kvs) :: ex) rest).map rowKey))
            (ex ++ rowKey (_extract_row kvs)
              :: (newRows (rowKey (_extract_row kvs) :: ex) rest).map rowKey)
            (fun k => by simp only [List.mem_append, List.mem_cons]; tauto)]
    all_goals (simp only [List.cons_append, newRows]; exact ih C ex)

/-- C1 amended: the snapshot reconciliation keeps the first-seen row for
each identity key regardless of calibration: an incoming record whose key
is already present, either in the archive or on a row accepted earlier in
the same batch, changes nothing, and an incoming record with a valid
unseen key is appended as-is. -/
theorem C1_first_seen_wins :
    (∀ (A : List Row) (B : List JVal) (kvs : List (String × JVal)),
        rowKey (_extract_row kvs) ∈
            _load_existing_keys A ++ (newRows (_load_existing_keys A) B).map rowKey →
        runArchive A (B ++ [.obj kvs]) = runArchive A B)
    ∧ (∀ (A : List Row) (B : List JVal) (kvs : List (String × JVal)),
        rowKey (_extract_row kvs) ∉
            _load_existing_keys A ++ (newRows (_load_existing_keys A) B).map rowKey →
        (rowKey (_extract_row kvs)).1 ≠ "" →
        (rowKey (_extract_row kvs)).2 ≠ "" →
        runArchive A (B ++ [.obj kvs]) = runArchive A B ++ [_extract_row kvs]) := by
  constructor
  · intro A B kvs hmem
    unfold runArchive
    rw [newRows_append B [.obj kvs] (_load_existing_keys A)]
    have hone : newRows
        (_load_existing_keys A ++ (newRows (_load_existing_keys A) B).map rowKey)
        [.obj kvs] = [] := by
      by_cases hA : (rowKey (_extract_row kvs)).1 = "" ∨ (rowKey (_extract_row kvs)).2 = ""
      · simp only [newRows]
        rw [if_pos hA]
      · simp only [newRows]
        rw [if_neg hA, if_pos hmem]
    rw [hone, List.append_nil]
  · intro A B kvs hmem h1 h2
    unfold runArchive
    rw [newRows_append B [.obj kvs] (_load_existing_keys A)]
    have hone : newRows
        (_load_existing_keys A ++ (newRows (_load_existing_keys A) B).map rowKey)
        [.obj kvs] = [_extract_row kvs] := by
      simp only [newRows]
      rw [if_neg (not_or.mpr ⟨h1, h2⟩), if_neg hmem]
    rw [hone, List.append_assoc]

/-- C1 witness: the skip conjunct applied with an empty archive and a
record whose key was first seen earlier in the same batch. -/
theorem C1_first_seen_wins_witness :
    runArchive [] ([.obj itemScenario] ++ [.obj itemWithCal]) = runArchive [] [.obj itemScenario] :=
  C1_first_seen_wins.1 [] [.obj itemScenario] itemWithCal (by decide)

theorem lookupFirstKey_none (item : List (String × JVal)) (keys : List String)
    (h : ∀ k ∈ keys, List.lookup k item = none) : lookupFirstKey item keys = none := by
  induction keys with
  | nil => rfl
  | cons k ks ih =>
    simp only [lookupFirstKey]
    rw [h k (List.mem_cons_self _ _)]
    exact ih fun a ha => h a (List.mem_cons_of_mem _ ha)

theorem pick_default (d : List (String × JVal)) (ks : List String) (dflt : JVal)
    (h : ∀ k ∈ ks, List.lookup k d = none) : _pick d ks dflt = dflt := by
  induction ks with
  | nil => rfl
  | cons k rest ih =>
    simp only [_pick]
    rw [h k (List.mem_cons_self _ _)]
    exact ih fun a ha => h a (List.mem_cons_of_mem _ ha)

/-- C4: for every pollutant field, a raw value with an absent calibrated
value is copied into the calibrated slot, for a nested object and for a
bare scalar alike; and the specification scenario row carries pm2_5 12.3,
the same calibrated value, and the normalized UTC datetime. -/
theorem C4_calibrated_fallback :
    (∀ (item pkvs : List (String × JVal)) (keys : List String) (x : PyNum),
        lookupFirstKey item keys = some (.obj pkvs) →
        _num (_pick pkvs calAliasKeys (.str "")) = none →
        _num (_pick pkvs rawAliasKeys (.str "")) = some x →
        _extract_pollutant item keys = (some x, some x))
    ∧ (∀ (item : List (String × JVal)) (keys : List String) (d : Dec),
        lookupFirstKey item keys = some (.num (.fin d)) →
        _extract_pollutant item keys = (some (.fin d), some (.fin d)))
    ∧ (∀ (item : List (String × JVal)) (keys : List String) (n : ℤ),
        lookupFirstKey item keys = some (.int n) →
        _extract_pollutant item keys = (some (.fin ⟨n, 0⟩), some (.fin ⟨n, 0⟩)))
    ∧ (∀ (item : List (String × JVal)) (keys : List String) (s : String) (x : PyNum),
        lookupFirstKey item keys = some (.str s) →
        _num (.str s) = some x →
        _extract_pollutant item keys = (some x, some x))
    ∧ (_extract_row itemScenario).pm2_5 = "12.3"
    ∧ (_extract_row itemScenario).pm2_5_calibrated_value = "12.3"
    ∧ (_extract_row itemScenario).datetime = "2024-01-01T00:00:00+00:00" := by
  refine ⟨?_, ?_, ?_, ?_, by decide, by decide, by decide⟩
  · intro item pkvs keys x hl hcal hraw
    unfold _extract_pollutant
    rw [hl]
    simp only [hcal, hraw]
  · intro item keys d hl
    unfold _extract_pollutant
    rw [hl]
    rfl
  · intro item keys n hl
    unfold _extract_pollutant
    rw [hl]
    rfl
  · intro item keys s x hl hx
    unfold _extract_pollutant
    rw [hl]
    simp only [hx]

/-- C4 witness: the nested-object conjunct applied to the scenario
pollutant object. -/
theorem C4_calibrated_fallback_witness :
    _extract_pollutant itemScenario ["pm2_5", "pm25", "pm_2_5"]
      = (some (.fin ⟨123, 1⟩), some (.fin ⟨123, 1⟩)) :=
  C4_calibrated_fallback.1 itemScenario [("value", .num (.fin ⟨123, 1⟩))]
    ["pm2_5", "pm25", "pm_2_5"] (.fin ⟨123, 1⟩) (by rfl) (by rfl) (by rfl)

/-- C5: the value extractor is total on numeric fields: None, the empty
string, any non-numeric string, nan and a string spelling nan give the
sentinel; a pollutant lookup with no key present, and a nested pollutant
object carrying neither a raw nor a calibrated field, give the sentinel
pair; all functions involved are total, so no exception is possible. -/
theorem C5_extractor_totality :
    _num .null = none
    ∧ _num (.str "") = none
    ∧ (∀ s, pyFloatOfString s = none → _num (.str s) = none)
    ∧ _num (.num .nan) = none
    ∧ _num (.str "NaN") = none
    ∧ (∀ (item : List (String × JVal)) (keys : List String),
        (∀ k ∈ keys, List.lookup k item = none) →
        _extract_pollutant item keys = (none, none))
    ∧ (∀ (item pkvs : List (String × JVal)) (keys : List String),
        lookupFirstKey item keys = some (.obj pkvs) →
        (∀ k ∈ rawAliasKeys, List.lookup k pkvs = none) →
        (∀ k ∈ calAliasKeys, List.lookup k pkvs = none) →
        _extract_pollutant item keys = (none, none)) := by
  refine ⟨by decide, by decide, ?_, by decide, by decide, ?_, ?_⟩
  · intro s h
    simp only [_num]
    rw [h]
  · intro item keys h
    unfold _extract_pollutant
    rw [lookupFirstKey_none item keys h]
  · intro item pkvs keys hl hraw hcal
    unfold _extract_pollutant
    rw [hl]
    simp only [pick_default pkvs rawAliasKeys (.str "") hraw,
      pick_default pkvs calAliasKeys (.str "") hcal]
    rfl

/-- C5 witness: the universally quantified conjuncts applied to concrete
malformed inputs. -/
theorem C5_extractor_totality_witness :
    _num (.str "12x") = none
    ∧ _extract_pollutant [("x", .null)] ["pm2_5", "pm25", "pm_2_5"] = (none, none)
    ∧ _extract_pollutant [("pm2_5", .obj [("foo", .int 3)])] ["pm2_5"] = (none, none) :=
  ⟨C5_extractor_totality.2.2.1 "12x" (by rfl),
   C5_extractor_totality.2.2.2.2.2.1 _ _ (by intro k hk; fin_cases hk <;> rfl),
   C5_extractor_totality.2.2.2.2.2.2 _ _ _ (by rfl)
     (by intro k hk; fin_cases hk <;> rfl)
     (by intro k hk; fin_cases hk <;> rfl)⟩

theorem iso_str_parsed (s : String) (dt : DT) (u : UTCTime)
    (hp : parseAfterRewrite (pyStrip s) = some dt) (hu : toUTC dt = some u) :
    _iso (.str s) = renderUTC u := by
  have hs : s ≠ "" := by
    intro h
    rw [h, show pyStrip "" = "" from rfl, show parseAfterRewrite "" = none from rfl] at hp
    exact Option.noConfusion hp
  have ht : pyStrip s ≠ "" := by
    intro h
    rw [h, show parseAfterRewrite "" = none from rfl] at hp
    exact Option.noConfusion hp
  have hbs : (s != "") = true := bne_iff_ne.mpr hs
  simp only [_iso, pyTruthy, hbs, if_true, pyStr]
  unfold isoStrPath
  rw [if_neg ht]
  simp only [hp, hu]

/-- C6 counterexample: an unparseable timestamp string with surrounding
whitespace is not returned verbatim: the stripped text is returned. -/
theorem C6_verbatim_false :
    _iso (.str " not a date ") = "not a date"
    ∧ "not a date" ≠ " not a date " := by decide

/-- C6 amended: two parseable strings denoting the same UTC instant (in
particular a Z-suffixed string and the equivalent explicit-offset string)
normalize to the same output; a non-zero in-range numeric epoch is read
as milliseconds and converted to UTC (epoch 0 is falsy in Python and
yields the empty string instead); and an unparseable string is returned
with surrounding whitespace stripped, hence verbatim when already
stripped. -/
theorem C6_timestamp_normalization :
    (∀ (s t : String) (dt1 dt2 : DT) (u : UTCTime),
        parseAfterRewrite (pyStrip s) = some dt1 →
        parseAfterRewrite (pyStrip t) = some dt2 →
        toUTC dt1 = some u → toUTC dt2 = some u →
        _iso (.str s) = _iso (.str t))
    ∧ _iso (.str "2024-01-01T00:00:00Z") = "2024-01-01T00:00:00+00:00"
    ∧ _iso (.str "2024-01-01T00:00:00+00:00") = "2024-01-01T00:00:00+00:00"
    ∧ _iso (.str "2024-01-01T03:00:00+03:00") = "2024-01-01T00:00:00+00:00"
    ∧ _iso (.num (.fin ⟨1704067200000, 0⟩)) = "2024-01-01T00:00:00+00:00"
    ∧ _iso (.num (.fin ⟨0, 0⟩)) = ""
    ∧ (∀ s, parseAfterRewrite (pyStrip s) = none → _iso (.str s) = pyStrip s) := by
  refine ⟨?_, by decide, by decide, by decide, by decide, by decide, ?_⟩
  · intro s t dt1 dt2 u hp1 hp2 hu1 hu2
    rw [iso_str_parsed s dt1 u hp1 hu1, iso_str_parsed t dt2 u hp2 hu2]
  · intro s h
    by_cases hs0 : s = ""
    · rw [hs0]; decide
    · have hbs : (s != "") = true := bne_iff_ne.mpr hs0
      simp only [_iso, pyTruthy, hbs, if_true, pyStr]
      unfold isoStrPath
      by_cases ht : pyStrip s = ""
      · rw [if_pos ht, ht]
      · rw [if_neg ht]
        simp only [h]

/-- C6 witness: the same-instant conjunct applied to the Z-suffixed
string and the equivalent explicit-offset string. -/
theorem C6_timestamp_normalization_witness :
    _iso (.str "2024-01-01T00:00:00Z") = _iso (.str "2024-01-01T03:00:00+03:00") :=
  C6_timestamp_normalization.1 _ _
    ⟨2024, 1, 1, 0, 0, 0, 0, some 0⟩ ⟨2024, 1, 1, 3, 0, 0, 0, some 10800⟩
    ⟨2024, 1, 1, 0, 0, 0, 0⟩ (by decide) (by decide) (by decide) (by decide)

theorem fetch_all_fail (oracle : ℕ → Resp × Resp)
    (hf : ∀ i < 4, respOk (attemptOf oracle i).1 = false) :
    fetch_with_retries oracle 4 =
      ⟨some (attemptOf oracle 3).1, (attemptOf oracle 3).2, [3, 12, 27, 48], 4⟩ := by
  have h0 := hf 0 (by norm_num)
  have h1 := hf 1 (by norm_num)
  have h2 := hf 2 (by norm_num)
  have h3 := hf 3 (by norm_num)
  unfold fetch_with_retries
  rw [show (4 : ℕ) = 3 + 1 from rfl]
  simp only [fetchGo, h0, h1, h2, h3, Bool.false_eq_true, if_false]
  norm_num

theorem fetchGo_calls_le (oracle : ℕ → Resp × Resp) : ∀ (fuel i : ℕ) (last : Option Resp)
    (mode : String) (sleeps : List ℕ),
    (fetchGo oracle i fuel last mode sleeps).calls ≤ i + fuel := by
  intro fuel
  induction fuel with
  | zero => intro i last mode sleeps; simp [fetchGo]
  | succ fuel ih =>
    intro i last mode sleeps
    simp only [fetchGo]
    by_cases h : respOk (attemptOf oracle i).1 = true
    · rw [if_pos h]; show i + 1 ≤ i + (fuel + 1); omega
    · rw [if_neg h]
      calc (fetchGo oracle (i + 1) fuel (some (attemptOf oracle i).1) (attemptOf oracle i).2
              _).calls ≤ (i + 1) + fuel := ih (i + 1) _ _ _
        _ = i + (fuel + 1) := by omega

theorem fetch_success_at (oracle : ℕ → Resp × Resp) (j : ℕ) (hj : j < 4)
    (hf : ∀ i < j, respOk (attemptOf oracle i).1 = false)
    (hok : respOk (attemptOf oracle j).1 = true) :
    fetch_with_retries oracle 4 =
      ⟨some (attemptOf oracle j).1, (attemptOf oracle j).2,
        (List.range j).map (fun i => 3 * (i + 1) ^ 2), j + 1⟩ := by
  unfold fetch_with_retries
  rw [show (4 : ℕ) = 3 + 1 from rfl]
  interval_cases j
  · simp only [fetchGo, hok, if_true]
    norm_num
  · have h0 := hf 0 (by norm_num)
    simp only [fetchGo, h0, Bool.false_eq_true, if_false, hok, if_true]
    norm_num
    rfl
  · have h0 := hf 0 (by norm_num)
    have h1 := hf 1 (by norm_num)
    simp only [fetchGo, h0, h1, Bool.false_eq_true, if_false, hok, if_true]
    norm_num
    rfl
  · have h0 := hf 0 (by norm_num)
    have h1 := hf 1 (by norm_num)
    have h2 := hf 2 (by norm_num)
    simp only [fetchGo, h0, h1, h2, Bool.false_eq_true, if_false, hok, if_true]
    norm_num
    rfl

/-- C7: the snapshot fetch makes at most 4 combined attempts, each being
bearer auth with query-token fallback, returns at the first successful
attempt with no further sleeps, and on failure sleeps 3 i squared seconds
after the i-th failed attempt, so the sleep sequence on repeated failure
is exactly 3, 12, 27 and 48 seconds. -/
theorem C7_retry_backoff :
    (∀ oracle : ℕ → Resp × Resp, (∀ i < 4, respOk (attemptOf oracle i).1 = false) →
        fetch_with_retries oracle 4 =
          ⟨some (attemptOf oracle 3).1, (attemptOf oracle 3).2,
            (List.range 4).map (fun i => 3 * (i + 1) ^ 2), 4⟩
        ∧ (List.range 4).map (fun i => 3 * (i + 1) ^ 2) = [3, 12, 27, 48])
    ∧ (∀ (oracle : ℕ → Resp × Resp) (j : ℕ), j < 4 →
        (∀ i < j, respOk (attemptOf oracle i).1 = false) →
        respOk (attemptOf oracle j).1 = true →
        fetch_with_retries oracle 4 =
          ⟨some (attemptOf oracle j).1, (attemptOf oracle j).2,
            (List.range j).map (fun i => 3 * (i + 1) ^ 2), j + 1⟩)
    ∧ (∀ oracle : ℕ → Resp × Resp, (fetch_with_retries oracle 4).calls ≤ 4) := by
  refine ⟨?_, ?_, ?_⟩
  · intro oracle hf
    refine ⟨?_, by decide⟩
    rw [show (List.range 4).map (fun i => 3 * (i + 1) ^ 2) = [3, 12, 27, 48] by decide]
    exact fetch_all_fail oracle hf
  · intro oracle j hj hf hok
    exact fetch_success_at oracle j hj hf hok
  · intro oracle
    have h := fetchGo_calls_le oracle 4 0 none "" []
    simpa [fetch_with_retries] using h

/-- C7 witness: the all-fail conjunct applied to a network that always
answers 500 to bearer auth and 503 to query auth. -/
theorem C7_retry_backoff_witness :
    fetch_with_retries (fun _ => (⟨500, "x"⟩, ⟨503, "y"⟩)) 4 =
      ⟨some (attemptOf (fun _ => (⟨500, "x"⟩, ⟨503, "y"⟩)) 3).1,
       (attemptOf (fun _ => (⟨500, "x"⟩, ⟨503, "y"⟩)) 3).2,
       (List.range 4).map (fun i => 3 * (i + 1) ^ 2), 4⟩ :=
  (C7_retry_backoff.1 _ (by decide)).1

/-- C8 counterexample: a response body whose measurement list sits under
the key data yields no rows, while the same list under measurements
yields a row, so the three keys are not interchangeable. -/
theorem C8_data_key_false :
    getMeasurementList [("data", .arr [.obj itemMinimal])] = []
    ∧ getMeasurementList [("measurements", .arr [.obj itemMinimal])] = [.obj itemMinimal]
    ∧ runArchive [] (getMeasurementList [("measurements", .arr [.obj itemMinimal])])
        ≠ runArchive [] (getMeasurementList [("data", .arr [.obj itemMinimal])]) :=
  ⟨rfl, rfl, by decide⟩

/-- C8 amended: the measurement list is recognized under the top-level
keys measurements and results, which are interchangeable, but not under
the key data, which yields no rows. -/
theorem C8_measurement_keys :
    (∀ xs : List JVal, getMeasurementList [("measurements", .arr xs)] = xs)
    ∧ (∀ xs : List JVal, getMeasurementList [("results", .arr xs)] = xs)
    ∧ (∀ xs : List JVal,
        getMeasurementList [("measurements", .arr xs)]
          = getMeasurementList [("results", .arr xs)])
    ∧ (∀ xs : List JVal, getMeasurementList [("data", .arr xs)] = []) := by
  have h1 : ∀ xs : List JVal, getMeasurementList [("measurements", .arr xs)] = xs := by
    intro xs
    cases xs with
    | nil => rfl
    | cons a as => rfl
  have h2 : ∀ xs : List JVal, getMeasurementList [("results", .arr xs)] = xs := by
    intro xs
    cases xs with
    | nil => rfl
    | cons a as => rfl
  exact ⟨h1, h2, fun xs => (h1 xs).trans (h2 xs).symm, fun xs => rfl⟩

theorem tryFetch_both_fail (r1 r2 : Resp) (h1 : respOk r1 = false) (h2 : respOk r2 = false) :
    _try_fetch r1 r2 =
      (r2, "failed(bearer=" ++ toString r1.status ++ ",query=" ++ toString r2.status ++ ")") := by
  unfold _try_fetch
  rw [if_neg (by simp [h1]), if_neg (by simp [h2])]

/-- C9: when all 4 attempts fail, the run writes the snapshot as an error
object whose status code is the final (query) status of the last attempt,
whose auth-mode field records the modes attempted with their statuses,
and whose body preview is the response text truncated to at most 500
characters; the archive is unchanged and the exit code is zero. -/
theorem C9_failure_snapshot (token cohortId : String) (oracle : ℕ → Resp × Resp)
    (jsonOf : Resp → Option JVal) (archive : List Row)
    (htok : pyStrip token ≠ "") (hcoh : pyStrip cohortId ≠ "")
    (hf : ∀ i < 4, respOk (oracle i).1 = false ∧ respOk (oracle i).2 = false) :
    mainRun token cohortId oracle jsonOf archive =
      (archive,
       some (.fetchError (some (oracle 3).2.status)
         ("failed(bearer=" ++ toString (oracle 3).1.status
           ++ ",query=" ++ toString (oracle 3).2.status ++ ")")
         (pyTake500 (oracle 3).2.text)), 0)
    ∧ (pyTake500 (oracle 3).2.text).length ≤ 500 := by
  have hcf : ∀ i < 4, respOk (attemptOf oracle i).1 = false := by
    intro i hi
    unfold attemptOf
    rw [tryFetch_both_fail _ _ (hf i hi).1 (hf i hi).2]
    exact (hf i hi).2
  have hfetch := fetch_all_fail oracle hcf
  have ha3 : attemptOf oracle 3 =
      ((oracle 3).2, "failed(bearer=" ++ toString (oracle 3).1.status
        ++ ",query=" ++ toString (oracle 3).2.status ++ ")") := by
    unfold attemptOf
    exact tryFetch_both_fail _ _ (hf 3 (by norm_num)).1 (hf 3 (by norm_num)).2
  rw [ha3] at hfetch
  constructor
  · unfold mainRun
    rw [if_neg (not_or.mpr ⟨htok, hcoh⟩)]
    simp only [hfetch]
    simp only [(hf 3 (by norm_num)).2, Bool.false_eq_true, if_false]
  · show ((oracle 3).2.text.data.take 500).length ≤ 500
    exact List.length_take_le _ _

/-- C9 witness: a run with valid configuration against a network that
always fails both auth modes. -/
theorem C9_failure_snapshot_witness :
    mainRun "tok" "coh" (fun _ => (⟨500, "x"⟩, ⟨503, "server down"⟩)) (fun _ => none) [] =
      ([], some (.fetchError (some 503) "failed(bearer=500,query=503)" "server down"), 0) :=
  (C9_failure_snapshot "tok" "coh" _ _ [] (by decide) (by decide) (by decide)).1

theorem roundHalfEvenInt_eq_zero (a : ℤ) (d : ℕ) (h0 : 0 ≤ a) (h : 2 * a < (d : ℤ)) :
    roundHalfEvenInt a d = 0 := by
  have hf : Int.fdiv a d = 0 := by
    rw [Int.fdiv_eq_ediv _ (by positivity)]
    exact Int.ediv_eq_zero_of_lt h0 (by omega)
  unfold roundHalfEvenInt
  rw [hf]
  simp only [zero_mul, sub_zero]
  rw [if_pos h]

/-- C10 counterexample: 0.12341 and 0.12349 agree in sign, integer part
and the first four decimal digits (their values multiplied by ten
thousand have the same floor) yet produce different stored text, because
formatting rounds to four decimal places using the fifth digit. -/
theorem C10_fourth_decimal_false :
    (⟨12341, 5⟩ : Dec) ≠ ⟨12349, 5⟩
    ∧ Int.fdiv ((12341 : ℤ) * 10 ^ 4) (10 ^ 5) = Int.fdiv ((12349 : ℤ) * 10 ^ 4) (10 ^ 5)
    ∧ fmtFloat4 ⟨12341, 5⟩ = "0.1234"
    ∧ fmtFloat4 ⟨12349, 5⟩ = "0.1235"
    ∧ fmtFloat4 ⟨12341, 5⟩ ≠ fmtFloat4 ⟨12349, 5⟩ := by decide

/-- C10 amended: stored text is the four-decimal rounding (ties to even)
of the value followed by trailing-zero trimming, so two inputs with the
same sign that round to the same four-decimal value produce identical
text; and every non-zero value smaller in magnitude than half of the last
kept decimal place is stored as 0, or -0 when negative. -/
theorem C10_rounding_trim :
    (∀ x y : Dec, (x.m < 0 ↔ y.m < 0) → roundMag4 x = roundMag4 y →
        fmtFloat4 x = fmtFloat4 y)
    ∧ (∀ x : Dec, x.m ≠ 0 → |x.m| * 20000 < 10 ^ x.s →
        fmtFloat4 x = if x.m < 0 then "-0" else "0") := by
  constructor
  · intro x y hs hr
    unfold fmtFloat4
    rw [hr]
    by_cases h : x.m < 0
    · rw [if_pos h, if_pos (hs.mp h)]
    · rw [if_neg h, if_neg (fun hy => h (hs.mpr hy))]
  · intro x hx hsmall
    have hm : roundMag4 x = 0 := by
      unfold roundMag4
      rw [roundHalfEvenInt_eq_zero (|x.m| * 10000) (10 ^ x.s) (by positivity) (by
        push_cast
        calc (2 : ℤ) * (|x.m| * 10000) = |x.m| * 20000 := by ring
          _ < 10 ^ x.s := by exact_mod_cast hsmall)]
      rfl
    unfold fmtFloat4
    rw [hm]
    by_cases h : x.m < 0
    · rw [if_pos h, if_pos h]
      decide
    · rw [if_neg h, if_neg h]
      decide

/-- C10 witness: the below-half-ulp conjunct applied to -0.00001. -/
theorem C10_rounding_trim_witness :
    fmtFloat4 ⟨-1, 5⟩ = (if (⟨-1, 5⟩ : Dec).m < 0 then "-0" else "0") :=
  C10_rounding_trim.2 ⟨-1, 5⟩ (by decide) (by decide)
